import Mathlib

/-!
Verification of the CLEdit editing engine (src/cledit.py) against its
specification.  The editor state and every operation below are shallow
embeddings of the Python class `Editor`: lines of text are lists of
character codes (naturals), the buffer is a list of lines, and each
method that mutates editor state becomes a function
`EditorState → EditorState`.  Python list indexing `lines[cy]` raises
`IndexError` when `cy` is out of range; the embedding uses `List.getD`
(default `[]`) instead and the theorems carry or establish the validity
hypotheses under which the two agree.  Python slices (`line[:k]`,
`line[k:]`) are total and are modeled by `List.take` / `List.drop`,
which have identical out-of-range behavior.
-/

/-- A line of text: the sequence of character code points, as in a Python
string. -/
abbrev Line : Type := List Nat

/-- An undo/redo snapshot `(deepcopy(self.lines), self.cx, self.cy)`
(cledit.py line 65). -/
abbrev Snap : Type := List Line × Nat × Nat

/-- The mutable fields of the Python `Editor` object that the editing engine
touches (cledit.py lines 23-41).  `rows` is the terminal height from
`stdscr.getmaxyx()`; curses screen handles, config fields and the menu-mode
dispatch state are rendering/input concerns outside the engine. -/
structure EditorState where
  rows : Nat
  lines : List Line
  cx : Nat
  cy : Nat
  scroll : Nat
  undo_stack : List Snap
  redo_stack : List Snap
  modified : Bool
  running : Bool
  filename : Option Line
deriving DecidableEq

/-- `CTRL = lambda x: ord(x) & 0x1f` (cledit.py line 18).  Masking with
`0x1f = 2^5 - 1` keeps the low five bits, which is exactly `x % 32`. -/
def CTRL (x : Nat) : Nat := x % 32

/-- curses.KEY_DOWN -/
def KEY_DOWN : Nat := 258

/-- curses.KEY_UP -/
def KEY_UP : Nat := 259

/-- curses.KEY_LEFT -/
def KEY_LEFT : Nat := 260

/-- curses.KEY_RIGHT -/
def KEY_RIGHT : Nat := 261

/-- `Editor.snapshot` (cledit.py lines 64-68): append a deep copy of
`(lines, cx, cy)` to the undo stack, evict the oldest entry (`pop(0)`)
when the stack exceeds 100 entries, and clear the redo stack. -/
def snapshot (s : EditorState) : EditorState :=
  let pushed := s.undo_stack ++ [(s.lines, s.cx, s.cy)]
  { s with
    undo_stack := if 100 < pushed.length then pushed.tail else pushed
    redo_stack := [] }

/-- `Editor.undo` (cledit.py lines 70-74): no-op on an empty undo stack;
otherwise push the current state onto the redo stack and pop the most
recent undo snapshot (`pop()` removes the last element) into the live
state. -/
def undo (s : EditorState) : EditorState :=
  match s.undo_stack.getLast? with
  | none => s
  | some (l, x, y) =>
    { s with
      redo_stack := s.redo_stack ++ [(s.lines, s.cx, s.cy)]
      undo_stack := s.undo_stack.dropLast
      lines := l
      cx := x
      cy := y }

/-- `Editor.redo` (cledit.py lines 76-80): symmetric to `undo`. -/
def redo (s : EditorState) : EditorState :=
  match s.redo_stack.getLast? with
  | none => s
  | some (l, x, y) =>
    { s with
      undo_stack := s.undo_stack ++ [(s.lines, s.cx, s.cy)]
      redo_stack := s.redo_stack.dropLast
      lines := l
      cx := x
      cy := y }

/-- `Editor.save` (cledit.py lines 132-138) as it acts on engine state: with
no filename it defers to the interactive save-as prompt (which leaves engine
state unchanged until a name is supplied); with a filename it writes
`"\n".join(self.lines)` to disk and clears the modified flag.  The written
bytes are modeled by `save_content`. -/
def save (s : EditorState) : EditorState :=
  match s.filename with
  | none => s
  | some _ => { s with modified := false }

/-- The file content written by `Editor.save` (cledit.py line 137):
`"\n".join(self.lines)`. -/
def save_content : List Line → Line
  | [] => []
  | [l] => l
  | l :: l2 :: rest => l ++ 10 :: save_content (l2 :: rest)

/-- The code points at which Python `str.splitlines` breaks a line:
`\n` (10), `\v` (11), `\f` (12), `\r` (13), the file, group and
record separators 28-30, `\x85` (133), and the Unicode line and
paragraph separators 8232 and 8233. -/
def isLineBreak (c : Nat) : Bool :=
  c = 10 || c = 11 || c = 12 || c = 13 || c = 28 || c = 29 || c = 30 ||
    c = 133 || c = 8232 || c = 8233

/-- Worker for `splitlines`: `acc` holds the current line, reversed.  A
`\r\n` pair counts as a single line boundary; a trailing boundary does not
open a final empty line. -/
def splitlinesAux (acc : Line) : Line → List Line
  | [] => if acc.isEmpty then [] else [acc.reverse]
  | [c] =>
    if isLineBreak c then [acc.reverse]
    else [(c :: acc).reverse]
  | c :: c2 :: rest =>
    if c = 13 ∧ c2 = 10 then acc.reverse :: splitlinesAux [] rest
    else if isLineBreak c then acc.reverse :: splitlinesAux [] (c2 :: rest)
    else splitlinesAux (c :: acc) (c2 :: rest)

/-- Python `str.splitlines` (used at cledit.py line 250): split on line
boundaries, with no trailing-boundary empty line. -/
def splitlines (content : Line) : List Line :=
  splitlinesAux [] content

/-- `Editor.prompt_open` (cledit.py lines 243-252) as it acts on engine
state: with an empty path nothing happens; otherwise the buffer is replaced
by `f.read().splitlines()` applied to the file's content, the filename is
set and the modified flag is cleared.  The cursor, scroll offset and
undo/redo stacks are not touched by the Python code. -/
def prompt_open (content : Line) (path : Line) (s : EditorState) : EditorState :=
  if path.isEmpty then s
  else
    { s with
      lines := splitlines content
      filename := some path
      modified := false }

/-- The `N`ew branch of `Editor.file_menu` (cledit.py lines 222-224):
`self.lines = [""]; self.filename = None`. -/
def new_file (s : EditorState) : EditorState :=
  { s with lines := [[]], filename := none }

/-- Normal-mode `Editor.handle_input` (cledit.py lines 156-200), the
single dispatch point of the editing engine.  The menu-mode branch
(lines 151-154 and 202-241) is interactive dispatch that invokes the same
`save`/`undo`/`redo`/`prompt_open`/`new_file` operations modeled above and
is not a per-key state transition of the engine itself. -/
def handle_input (ch : Nat) (s : EditorState) : EditorState :=
  if ch = CTRL 113 then { s with running := false }
  else if ch = CTRL 115 then save s
  else if ch = CTRL 122 then undo s
  else if ch = CTRL 121 then redo s
  else if ch = CTRL 108 then s
  else if ch = KEY_LEFT then { s with cx := max 0 (s.cx - 1) }
  else if ch = KEY_RIGHT then
    { s with cx := min (s.lines.getD s.cy []).length (s.cx + 1) }
  else if ch = KEY_UP then { s with cy := max 0 (s.cy - 1) }
  else if ch = KEY_DOWN then
    { s with cy := min (s.lines.length - 1) (s.cy + 1) }
  else if ch = 10 ∨ ch = 13 then
    let s1 := snapshot s
    let line := s1.lines.getD s1.cy []
    { s1 with
      lines := (s1.lines.set s1.cy (line.take s1.cx)).insertIdx (s1.cy + 1)
        (line.drop s1.cx)
      cx := 0
      cy := s1.cy + 1
      modified := true }
  else if ch = 8 ∨ ch = 127 then
    let s1 := snapshot s
    if 0 < s1.cx then
      let line := s1.lines.getD s1.cy []
      { s1 with
        lines := s1.lines.set s1.cy (line.take (s1.cx - 1) ++ line.drop s1.cx)
        cx := s1.cx - 1
        modified := true }
    else if 0 < s1.cy then
      let prev := s1.lines.getD (s1.cy - 1) []
      let cur := s1.lines.getD s1.cy []
      { s1 with
        lines := (s1.lines.set (s1.cy - 1) (prev ++ cur)).eraseIdx s1.cy
        cx := prev.length
        cy := s1.cy - 1
        modified := true }
    else { s1 with modified := true }
  else if 32 ≤ ch ∧ ch ≤ 126 then
    let s1 := snapshot s
    let line := s1.lines.getD s1.cy []
    { s1 with
      lines := s1.lines.set s1.cy (line.take s1.cx ++ ch :: line.drop s1.cx)
      cx := s1.cx + 1
      modified := true }
  else s

/-- The freshly constructed engine state (cledit.py lines 29-41):
`lines = [""]`, cursor at the origin, scroll 0, empty history, not
modified, no filename. -/
def initState (rows : Nat) : EditorState :=
  { rows := rows
    lines := [[]]
    cx := 0
    cy := 0
    scroll := 0
    undo_stack := []
    redo_stack := []
    modified := false
    running := true
    filename := none }

/-- Run a sequence of normal-mode key events through `handle_input`. -/
def run_keys (chs : List Nat) (s : EditorState) : EditorState :=
  chs.foldl (fun t ch => handle_input ch t) s

/-- An engine-level operation: a normal-mode key event, a file open (with
the opened file's content and path), or the new-file menu action. -/
inductive Op where
  | key : Nat → Op
  | openFile : Line → Line → Op
  | newFile : Op

/-- Apply one engine-level operation. -/
def apply_op : Op → EditorState → EditorState
  | Op.key ch, s => handle_input ch s
  | Op.openFile content path, s => prompt_open content path s
  | Op.newFile, s => new_file s

/-- Run a sequence of engine-level operations. -/
def run_ops (ops : List Op) (s : EditorState) : EditorState :=
  ops.foldl (fun t op => apply_op op t) s

/-- Iterate `undo` n times. -/
def undoN : Nat → EditorState → EditorState
  | 0, s => s
  | n + 1, s => undoN n (undo s)

/-- Height of the text area: `h = self.rows - 2` (cledit.py line 104), one
row for the menu bar and one for the status bar. -/
def visible_height (s : EditorState) : Nat := s.rows - 2

/-- The viewport invariant claimed by the spec:
`scroll_row <= cursor.row < scroll_row + visible_height`
(`scroll_row >= 0` is automatic over `Nat`). -/
def viewport_ok (s : EditorState) : Prop :=
  s.scroll ≤ s.cy ∧ s.cy < s.scroll + visible_height s

instance (s : EditorState) : Decidable (viewport_ok s) := by
  unfold viewport_ok; infer_instance

/-- The cursor invariant claimed by the spec: the row is a valid line index
and the column is at most the current line's length. -/
def cursor_ok (s : EditorState) : Prop :=
  s.lines ≠ [] ∧ s.cy < s.lines.length ∧
    s.cx ≤ (s.lines.getD s.cy []).length

instance (s : EditorState) : Decidable (cursor_ok s) := by
  unfold cursor_ok; infer_instance

/-! Equation lemmas for `handle_input`: one per branch of the Python
`elif` chain, with the dispatch guards discharged. -/

theorem handle_input_eq_undo (s : EditorState) : handle_input 26 s = undo s := rfl

theorem handle_input_eq_redo (s : EditorState) : handle_input 25 s = redo s := rfl

theorem handle_input_eq_left (s : EditorState) :
    handle_input KEY_LEFT s = { s with cx := max 0 (s.cx - 1) } := rfl

theorem handle_input_eq_right (s : EditorState) :
    handle_input KEY_RIGHT s =
      { s with cx := min (s.lines.getD s.cy []).length (s.cx + 1) } := rfl

theorem handle_input_eq_up (s : EditorState) :
    handle_input KEY_UP s = { s with cy := max 0 (s.cy - 1) } := rfl

theorem handle_input_eq_down (s : EditorState) :
    handle_input KEY_DOWN s =
      { s with cy := min (s.lines.length - 1) (s.cy + 1) } := rfl

theorem handle_input_eq_enter (ch : Nat) (s : EditorState) (h : ch = 10 ∨ ch = 13) :
    handle_input ch s =
      { snapshot s with
        lines := (s.lines.set s.cy ((s.lines.getD s.cy []).take s.cx)).insertIdx
          (s.cy + 1) ((s.lines.getD s.cy []).drop s.cx)
        cx := 0
        cy := s.cy + 1
        modified := true } := by
  rcases h with h | h <;> subst h <;> rfl

theorem handle_input_eq_backspace (ch : Nat) (s : EditorState) (h : ch = 8 ∨ ch = 127) :
    handle_input ch s =
      if 0 < s.cx then
        { snapshot s with
          lines := s.lines.set s.cy
            ((s.lines.getD s.cy []).take (s.cx - 1) ++ (s.lines.getD s.cy []).drop s.cx)
          cx := s.cx - 1
          modified := true }
      else if 0 < s.cy then
        { snapshot s with
          lines := (s.lines.set (s.cy - 1)
            (s.lines.getD (s.cy - 1) [] ++ s.lines.getD s.cy [])).eraseIdx s.cy
          cx := (s.lines.getD (s.cy - 1) []).length
          cy := s.cy - 1
          modified := true }
      else { snapshot s with modified := true } := by
  rcases h with h | h <;> subst h <;> rfl

theorem handle_input_eq_insert (ch : Nat) (s : EditorState)
    (h1 : 32 ≤ ch) (h2 : ch ≤ 126) :
    handle_input ch s =
      { snapshot s with
        lines := s.lines.set s.cy
          ((s.lines.getD s.cy []).take s.cx ++ ch :: (s.lines.getD s.cy []).drop s.cx)
        cx := s.cx + 1
        modified := true } := by
  unfold handle_input CTRL KEY_LEFT KEY_RIGHT KEY_UP KEY_DOWN
  iterate 11 rw [if_neg (by omega)]
  rw [if_pos (by omega)]
  rfl

theorem handle_input_eq_other (ch : Nat) (s : EditorState)
    (h : ch ≠ 17 ∧ ch ≠ 19 ∧ ch ≠ 26 ∧ ch ≠ 25 ∧ ch ≠ 12 ∧ ch ≠ 260 ∧ ch ≠ 261 ∧
      ch ≠ 259 ∧ ch ≠ 258 ∧ ch ≠ 10 ∧ ch ≠ 13 ∧ ch ≠ 8 ∧ ch ≠ 127 ∧
      ¬(32 ≤ ch ∧ ch ≤ 126)) :
    handle_input ch s = s := by
  obtain ⟨h1, h2, h3, h4, h5, h6, h7, h8, h9, h10, h11, h12, h13, h14⟩ := h
  unfold handle_input CTRL KEY_LEFT KEY_RIGHT KEY_UP KEY_DOWN
  iterate 12 rw [if_neg (by omega)]

/-- Case analysis on the branches of the `handle_input` dispatch: to prove a
property of `handle_input ch s` it suffices to prove it of every branch
result. -/
theorem handle_input_cases (P : Nat → EditorState → EditorState → Prop)
    (hquit : ∀ s, P 17 s { s with running := false })
    (hsave : ∀ s, P 19 s (save s))
    (hundo : ∀ s, P 26 s (undo s))
    (hredo : ∀ s, P 25 s (redo s))
    (hleft : ∀ s, P 260 s { s with cx := max 0 (s.cx - 1) })
    (hright : ∀ s, P 261 s
      { s with cx := min (s.lines.getD s.cy []).length (s.cx + 1) })
    (hup : ∀ s, P 259 s { s with cy := max 0 (s.cy - 1) })
    (hdown : ∀ s, P 258 s { s with cy := min (s.lines.length - 1) (s.cy + 1) })
    (henter : ∀ ch s, ch = 10 ∨ ch = 13 → P ch s
      { snapshot s with
        lines := (s.lines.set s.cy ((s.lines.getD s.cy []).take s.cx)).insertIdx
          (s.cy + 1) ((s.lines.getD s.cy []).drop s.cx)
        cx := 0
        cy := s.cy + 1
        modified := true })
    (hback1 : ∀ ch s, ch = 8 ∨ ch = 127 → 0 < s.cx → P ch s
      { snapshot s with
        lines := s.lines.set s.cy
          ((s.lines.getD s.cy []).take (s.cx - 1) ++ (s.lines.getD s.cy []).drop s.cx)
        cx := s.cx - 1
        modified := true })
    (hback2 : ∀ ch s, ch = 8 ∨ ch = 127 → s.cx = 0 → 0 < s.cy → P ch s
      { snapshot s with
        lines := (s.lines.set (s.cy - 1)
          (s.lines.getD (s.cy - 1) [] ++ s.lines.getD s.cy [])).eraseIdx s.cy
        cx := (s.lines.getD (s.cy - 1) []).length
        cy := s.cy - 1
        modified := true })
    (hback3 : ∀ ch s, ch = 8 ∨ ch = 127 → s.cx = 0 → s.cy = 0 →
      P ch s { snapshot s with modified := true })
    (hins : ∀ ch s, 32 ≤ ch → ch ≤ 126 → P ch s
      { snapshot s with
        lines := s.lines.set s.cy
          ((s.lines.getD s.cy []).take s.cx ++ ch :: (s.lines.getD s.cy []).drop s.cx)
        cx := s.cx + 1
        modified := true })
    (hother : ∀ ch s, P ch s s) :
    ∀ ch s, P ch s (handle_input ch s) := by
  intro ch s
  by_cases h17 : ch = 17
  · subst h17; exact hquit s
  by_cases h19 : ch = 19
  · subst h19; exact hsave s
  by_cases h26 : ch = 26
  · subst h26; exact hundo s
  by_cases h25 : ch = 25
  · subst h25; exact hredo s
  by_cases h12 : ch = 12
  · subst h12; exact hother 12 s
  by_cases h260 : ch = 260
  · subst h260; exact hleft s
  by_cases h261 : ch = 261
  · subst h261; exact hright s
  by_cases h259 : ch = 259
  · subst h259; exact hup s
  by_cases h258 : ch = 258
  · subst h258; exact hdown s
  by_cases hE : ch = 10 ∨ ch = 13
  · rw [handle_input_eq_enter ch s hE]; exact henter ch s hE
  by_cases hB : ch = 8 ∨ ch = 127
  · rw [handle_input_eq_backspace ch s hB]
    by_cases hx : 0 < s.cx
    · rw [if_pos hx]; exact hback1 ch s hB hx
    rw [if_neg hx]
    by_cases hy : 0 < s.cy
    · rw [if_pos hy]; exact hback2 ch s hB (by omega) hy
    · rw [if_neg hy]; exact hback3 ch s hB (by omega) (by omega)
  by_cases hP : 32 ≤ ch ∧ ch ≤ 126
  · rw [handle_input_eq_insert ch s hP.1 hP.2]; exact hins ch s hP.1 hP.2
  · rw [handle_input_eq_other ch s
      ⟨h17, h19, h26, h25, h12, h260, h261, h259, h258,
        fun h => hE (Or.inl h), fun h => hE (Or.inr h),
        fun h => hB (Or.inl h), fun h => hB (Or.inr h), hP⟩]
    exact hother ch s

theorem save_scroll (s : EditorState) : (save s).scroll = s.scroll := by
  unfold save; split <;> rfl

theorem undo_scroll (s : EditorState) : (undo s).scroll = s.scroll := by
  unfold undo; split <;> rfl

theorem redo_scroll (s : EditorState) : (redo s).scroll = s.scroll := by
  unfold redo; split <;> rfl

/-- Claim C1: after every cursor movement or editing operation the viewport
satisfies `scroll_row <= cursor.row < scroll_row + visible_height`.  The
code never adjusts `self.scroll` after its initialization: every branch of
`handle_input` leaves it untouched, and already three Enter keys on a
5-row terminal (visible height 3) from the fresh state put the cursor on
row 3, outside the window `[0, 3)`. -/
theorem C1_scroll_never_adjusted :
    (∀ (ch : Nat) (s : EditorState), (handle_input ch s).scroll = s.scroll) ∧
    (run_keys [10, 10, 10] (initState 5)).cy = 3 ∧
    (run_keys [10, 10, 10] (initState 5)).scroll = 0 ∧
    ¬ viewport_ok (run_keys [10, 10, 10] (initState 5)) := by
  constructor
  · exact handle_input_cases (fun ch s t => t.scroll = s.scroll)
      (fun s => rfl) save_scroll undo_scroll redo_scroll
      (fun s => rfl) (fun s => rfl) (fun s => rfl) (fun s => rfl)
      (fun ch s h => rfl) (fun ch s h hx => rfl) (fun ch s h hx hy => rfl)
      (fun ch s h hx hy => rfl) (fun ch s h1 h2 => rfl) (fun ch s => rfl)
  · exact ⟨by decide, by decide, by decide⟩

/-- Claim C2: the spec says opening a file resets the cursor to the origin
and clears the undo/redo history.  `prompt_open` (cledit.py lines 243-252)
replaces the buffer and clears the modified flag but leaves the cursor and
both history stacks untouched: opening a one-line file while the cursor
sits at row 1, column 3 keeps cursor (1,3) — now out of bounds — and keeps
the recorded snapshot. -/
theorem C2_open_keeps_cursor_and_history :
    let s0 : EditorState :=
      { rows := 24
        lines := [[104, 101, 108, 108, 111], [119, 111, 114, 108, 100]]
        cx := 3, cy := 1, scroll := 0
        undo_stack := [([[]], 0, 0)], redo_stack := []
        modified := true, running := true, filename := none }
    let t := prompt_open [120] [102] s0
    t.lines = [[120]] ∧ t.modified = false ∧ t.cx = 3 ∧ t.cy = 1 ∧
      t.undo_stack = [([[]], 0, 0)] ∧ ¬ t.cy < t.lines.length := by
  decide

/-- Claim C3: the spec says the buffer's line list is never empty after any
operation, including opening an empty file.  Python's `"".splitlines()` is
`[]`, so `prompt_open` on an empty file sets `lines = []`, while the fresh
engine state (and every `handle_input` result from it) has at least one
line. -/
theorem C3_open_empty_file_empties_buffer :
    (prompt_open [] [102] (initState 24)).lines = [] ∧
    (initState 24).lines ≠ [] := by
  decide

/-- Claim C5 counterexample: backspace at (0,0) on the fresh state leaves
buffer and cursor unchanged, but — contrary to the claim that buffer,
cursor, modified flag and history all remain exactly unchanged — it sets
the modified flag and pushes a snapshot onto the undo stack
(cledit.py lines 182-194: `snapshot()` and `modified = True` run before
and after the position test). -/
theorem C5_counterexample :
    (handle_input 127 (initState 24)).lines = (initState 24).lines ∧
    (handle_input 127 (initState 24)).cx = (initState 24).cx ∧
    (handle_input 127 (initState 24)).cy = (initState 24).cy ∧
    ¬ ((handle_input 127 (initState 24)).modified = (initState 24).modified ∧
      (handle_input 127 (initState 24)).undo_stack = (initState 24).undo_stack) := by
  decide

/-- Claim C5 as amended: backspace at (0,0) leaves buffer and cursor
unchanged and raises no error, but it still pushes a snapshot onto the
undo stack (clearing the redo stack) and sets the modified flag. -/
theorem C5_backspace_at_origin (ch : Nat) (s : EditorState)
    (hch : ch = 8 ∨ ch = 127) (hx : s.cx = 0) (hy : s.cy = 0) :
    (handle_input ch s).lines = s.lines ∧
    (handle_input ch s).cx = s.cx ∧
    (handle_input ch s).cy = s.cy ∧
    (handle_input ch s).modified = true ∧
    (handle_input ch s).undo_stack = (snapshot s).undo_stack ∧
    (handle_input ch s).redo_stack = [] := by
  rw [handle_input_eq_backspace ch s hch, if_neg (by omega), if_neg (by omega)]
  exact ⟨rfl, rfl, rfl, rfl, rfl, rfl⟩

theorem C5_backspace_at_origin_witness :
    (handle_input 127 (initState 24)).lines = (initState 24).lines ∧
    (handle_input 127 (initState 24)).cx = (initState 24).cx ∧
    (handle_input 127 (initState 24)).cy = (initState 24).cy ∧
    (handle_input 127 (initState 24)).modified = true ∧
    (handle_input 127 (initState 24)).undo_stack = (snapshot (initState 24)).undo_stack ∧
    (handle_input 127 (initState 24)).redo_stack = [] :=
  C5_backspace_at_origin 127 (initState 24) (Or.inr rfl) rfl rfl

/-- Claim C7 counterexample: from the fresh state, Enter then typing "ab"
reaches a state with a valid cursor, but one KEY_UP then moves the cursor
to row 0 with column 2, beyond the empty first line's length — vertical
movement (cledit.py lines 170-173) does not clamp the column. -/
theorem C7_counterexample :
    cursor_ok (run_keys [10, 97, 98] (initState 24)) ∧
    ¬ cursor_ok (run_keys [10, 97, 98, KEY_UP] (initState 24)) := by
  decide

/-- Claim C10 counterexample: the buffer `["a\rb"]` is nonempty, contains
no newline (`\n`) character and its last line is nonempty, yet saving it
writes `"a\rb"` and reopening splits on the carriage return, giving
`["a","b"]` — Python `splitlines` breaks on more characters than `\n`. -/
theorem C10_counterexample :
    ([[97, 13, 98]] : List Line) ≠ [] ∧
    (∀ l ∈ ([[97, 13, 98]] : List Line), (10 : Nat) ∉ l) ∧
    ([[97, 13, 98]] : List Line).getLast? ≠ some [] ∧
    splitlines (save_content [[97, 13, 98]]) ≠ [[97, 13, 98]] := by
  decide

set_option maxRecDepth 10000 in
/-- Claim C9: from the fresh engine, 105 character insertions cap the undo
stack at exactly 100 snapshots, and 100 undos land on the state as it was
just after the 5th insertion (buffer `["aaaaa"]`, cursor (0,5)) — not on
the empty buffer. -/
theorem C9_insertion_cap_scenario :
    (run_keys (List.replicate 105 97) (initState 24)).undo_stack.length = 100 ∧
    (undoN 100 (run_keys (List.replicate 105 97) (initState 24))).lines =
      (run_keys (List.replicate 5 97) (initState 24)).lines ∧
    (undoN 100 (run_keys (List.replicate 105 97) (initState 24))).cx =
      (run_keys (List.replicate 5 97) (initState 24)).cx ∧
    (undoN 100 (run_keys (List.replicate 105 97) (initState 24))).cy =
      (run_keys (List.replicate 5 97) (initState 24)).cy ∧
    (run_keys (List.replicate 5 97) (initState 24)).lines = [List.replicate 5 97] ∧
    (run_keys (List.replicate 5 97) (initState 24)).cx = 5 ∧
    (undoN 100 (run_keys (List.replicate 105 97) (initState 24))).lines ≠
      (initState 24).lines := by
  decide

theorem snapshot_undo_getLast (s : EditorState) :
    (snapshot s).undo_stack.getLast? = some (s.lines, s.cx, s.cy) := by
  unfold snapshot
  dsimp only
  split
  · rename_i hlen
    have hne : s.undo_stack ≠ [] := by
      intro h0
      rw [h0] at hlen
      simp at hlen
    rw [List.tail_append_of_ne_nil hne, List.getLast?_concat]
  · rw [List.getLast?_concat]

/-- After a `snapshot`-then-mutate step (any state `t` whose undo stack is
the one produced by `snapshot s`), `undo` restores the pre-operation
buffer and cursor of `s`, and `redo` after that restores `t`'s buffer and
cursor. -/
theorem undo_after_snapshot (s t : EditorState)
    (hu : t.undo_stack = (snapshot s).undo_stack) :
    (undo t).lines = s.lines ∧ (undo t).cx = s.cx ∧ (undo t).cy = s.cy ∧
    (redo (undo t)).lines = t.lines ∧ (redo (undo t)).cx = t.cx ∧
    (redo (undo t)).cy = t.cy := by
  have hlast : t.undo_stack.getLast? = some (s.lines, s.cx, s.cy) := by
    rw [hu]; exact snapshot_undo_getLast s
  have h1 : undo t =
      { t with
        redo_stack := t.redo_stack ++ [(t.lines, t.cx, t.cy)]
        undo_stack := t.undo_stack.dropLast
        lines := s.lines
        cx := s.cx
        cy := s.cy } := by
    unfold undo
    rw [hlast]
  refine ⟨by rw [h1], by rw [h1], by rw [h1], ?_, ?_, ?_⟩ <;>
    · rw [h1]
      unfold redo
      dsimp only
      rw [List.getLast?_concat]

/-- A content-mutating key: Enter, Backspace/Delete, or a printable
character (cledit.py lines 174-200). -/
def mutating (ch : Nat) : Prop :=
  ch = 10 ∨ ch = 13 ∨ ch = 8 ∨ ch = 127 ∨ (32 ≤ ch ∧ ch ≤ 126)

/-- Claim C4: for every single mutating operation (character insert, line
split via Enter, backspace) from a state whose cursor row is in bounds
(as Python's `lines[self.cy]` requires), `undo()` immediately afterwards
restores the exact pre-operation buffer and cursor, and `redo()` after
that `undo()` restores the exact post-operation buffer and cursor. -/
theorem C4_undo_redo_roundtrip (ch : Nat) (s : EditorState)
    (hm : mutating ch) (hcy : s.cy < s.lines.length) :
    (undo (handle_input ch s)).lines = s.lines ∧
    (undo (handle_input ch s)).cx = s.cx ∧
    (undo (handle_input ch s)).cy = s.cy ∧
    (redo (undo (handle_input ch s))).lines = (handle_input ch s).lines ∧
    (redo (undo (handle_input ch s))).cx = (handle_input ch s).cx ∧
    (redo (undo (handle_input ch s))).cy = (handle_input ch s).cy := by
  rcases hm with h | h | h | h | ⟨hlo, hhi⟩
  · rw [handle_input_eq_enter ch s (Or.inl h)]
    exact undo_after_snapshot s _ rfl
  · rw [handle_input_eq_enter ch s (Or.inr h)]
    exact undo_after_snapshot s _ rfl
  · rw [handle_input_eq_backspace ch s (Or.inl h)]
    split_ifs <;> exact undo_after_snapshot s _ rfl
  · rw [handle_input_eq_backspace ch s (Or.inr h)]
    split_ifs <;> exact undo_after_snapshot s _ rfl
  · rw [handle_input_eq_insert ch s hlo hhi]
    exact undo_after_snapshot s _ rfl

theorem C4_undo_redo_roundtrip_witness :
    (undo (handle_input 97 (initState 24))).lines = (initState 24).lines ∧
    (undo (handle_input 97 (initState 24))).cx = (initState 24).cx ∧
    (undo (handle_input 97 (initState 24))).cy = (initState 24).cy ∧
    (redo (undo (handle_input 97 (initState 24)))).lines =
      (handle_input 97 (initState 24)).lines ∧
    (redo (undo (handle_input 97 (initState 24)))).cx =
      (handle_input 97 (initState 24)).cx ∧
    (redo (undo (handle_input 97 (initState 24)))).cy =
      (handle_input 97 (initState 24)).cy :=
  C4_undo_redo_roundtrip 97 (initState 24)
    (Or.inr (Or.inr (Or.inr (Or.inr ⟨by omega, by omega⟩)))) (by decide)

/-- The combined size of the two history stacks never exceeds the cap:
`snapshot` enforces it and `undo`/`redo` only move entries between the
stacks. -/
def stack_inv (s : EditorState) : Prop :=
  s.undo_stack.length + s.redo_stack.length ≤ 100

theorem stack_inv_snapshot (s : EditorState) (h : stack_inv s) :
    stack_inv (snapshot s) := by
  unfold stack_inv at h ⊢
  unfold snapshot
  dsimp only
  split
  · simp only [List.tail_append_of_ne_nil, List.length_tail, List.length_append,
      List.length_nil, List.length_cons]
    omega
  · rename_i hlen
    simp only [List.length_append, List.length_nil, List.length_cons] at hlen ⊢
    omega

theorem stack_inv_undo (s : EditorState) (h : stack_inv s) :
    stack_inv (undo s) := by
  unfold stack_inv at h ⊢
  unfold undo
  split
  · exact h
  · rename_i l x y heq
    have hne : s.undo_stack ≠ [] := by
      intro h0
      rw [h0] at heq
      simp at heq
    have hpos : 0 < s.undo_stack.length := List.length_pos.mpr hne
    dsimp only
    rw [List.length_dropLast, List.length_append]
    simp only [List.length_cons, List.length_nil]
    omega

theorem stack_inv_redo (s : EditorState) (h : stack_inv s) :
    stack_inv (redo s) := by
  unfold stack_inv at h ⊢
  unfold redo
  split
  · exact h
  · rename_i l x y heq
    have hne : s.redo_stack ≠ [] := by
      intro h0
      rw [h0] at heq
      simp at heq
    have hpos : 0 < s.redo_stack.length := List.length_pos.mpr hne
    dsimp only
    rw [List.length_dropLast, List.length_append]
    simp only [List.length_cons, List.length_nil]
    omega

theorem stack_inv_save (s : EditorState) (h : stack_inv s) :
    stack_inv (save s) := by
  unfold save
  split
  · exact h
  · exact h

theorem stack_inv_handle_input (ch : Nat) (s : EditorState) :
    stack_inv s → stack_inv (handle_input ch s) :=
  handle_input_cases (fun _ s t => stack_inv s → stack_inv t)
    (fun _ h => h) (fun s => stack_inv_save s) (fun s => stack_inv_undo s)
    (fun s => stack_inv_redo s) (fun _ h => h) (fun _ h => h) (fun _ h => h)
    (fun _ h => h)
    (fun _ s _ h => stack_inv_snapshot s h)
    (fun _ s _ _ h => stack_inv_snapshot s h)
    (fun _ s _ _ _ h => stack_inv_snapshot s h)
    (fun _ s _ _ _ h => stack_inv_snapshot s h)
    (fun _ s _ _ h => stack_inv_snapshot s h)
    (fun _ _ h => h) ch s

theorem stack_inv_apply_op (op : Op) (s : EditorState) (h : stack_inv s) :
    stack_inv (apply_op op s) := by
  cases op with
  | key ch => exact stack_inv_handle_input ch s h
  | openFile content path =>
    show stack_inv (prompt_open content path s)
    unfold prompt_open
    split
    · exact h
    · exact h
  | newFile =>
    show stack_inv (new_file s)
    exact h

theorem stack_inv_run_ops (ops : List Op) (s : EditorState) (h : stack_inv s) :
    stack_inv (run_ops ops s) := by
  induction ops generalizing s with
  | nil => exact h
  | cons op rest ih => exact ih (apply_op op s) (stack_inv_apply_op op s h)

/-- Claim C6: the undo stack never holds more than 100 snapshots over any
sequence of engine operations from the fresh state, and a push onto a full
stack evicts the oldest entry (the bottom, index 0) first. -/
theorem C6_undo_cap :
    (∀ (ops : List Op) (rows : Nat),
      (run_ops ops (initState rows)).undo_stack.length ≤ 100) ∧
    (∀ s : EditorState, s.undo_stack.length = 100 →
      (snapshot s).undo_stack =
        s.undo_stack.tail ++ [(s.lines, s.cx, s.cy)]) := by
  constructor
  · intro ops rows
    have h := stack_inv_run_ops ops (initState rows) (by unfold stack_inv initState; simp)
    unfold stack_inv at h
    omega
  · intro s h
    have hne : s.undo_stack ≠ [] := by
      intro h0
      rw [h0] at h
      simp at h
    unfold snapshot
    dsimp only
    rw [if_pos (by simp [List.length_append]; omega),
      List.tail_append_of_ne_nil hne]

/-- A concrete state with a full undo stack, for the C6 witness. -/
def c6_state : EditorState :=
  { initState 24 with undo_stack := List.replicate 100 ([[]], 0, 0) }

theorem C6_undo_cap_witness :
    (run_ops [Op.key 97] (initState 24)).undo_stack.length ≤ 100 ∧
    (snapshot c6_state).undo_stack =
      c6_state.undo_stack.tail ++ [(c6_state.lines, c6_state.cx, c6_state.cy)] :=
  ⟨C6_undo_cap.1 [Op.key 97] 24,
    C6_undo_cap.2 c6_state (by unfold c6_state; simp)⟩

theorem getD_set_self (l : List Line) (i : Nat) (a d : Line)
    (h : i < l.length) : (l.set i a).getD i d = a := by
  rw [List.getD_eq_getElem?_getD, List.getElem?_set_self h]
  rfl

theorem set_getD_self (l : List Line) (i : Nat) (d : Line)
    (h : i < l.length) : l.set i (l.getD i d) = l := by
  apply List.ext_getElem?
  intro n
  by_cases hn : i = n
  · subst hn
    rw [List.getElem?_set_self h, List.getD_eq_getElem?_getD,
      List.getElem?_eq_getElem h]
    rfl
  · rw [List.getElem?_set_ne hn]

/-- Inserting a character at a valid column of a line and then deleting the
character before the resulting cursor position gives back the original
line. -/
theorem insert_delete_line (L : Line) (c k : Nat) (hk : k ≤ L.length) :
    (L.take k ++ c :: L.drop k).take k ++ (L.take k ++ c :: L.drop k).drop (k + 1) = L := by
  have hlen : (L.take k).length = k := by
    rw [List.length_take]
    omega
  have htake : (L.take k ++ c :: L.drop k).take k = L.take k :=
    List.take_left' hlen
  have hsplit : L.take k ++ c :: L.drop k = (L.take k ++ [c]) ++ L.drop k := by
    simp
  have hdrop : (L.take k ++ c :: L.drop k).drop (k + 1) = L.drop k := by
    rw [hsplit, List.drop_left' (by simp [hlen])]
  rw [htake, hdrop, List.take_append_drop]

/-- Claim C8: from any state with a valid cursor, inserting a printable
character and then immediately backspacing returns the buffer and the
cursor to their exact prior values. -/
theorem C8_insert_backspace_roundtrip (ch : Nat) (s : EditorState)
    (h1 : 32 ≤ ch) (h2 : ch ≤ 126) (hcy : s.cy < s.lines.length)
    (hcx : s.cx ≤ (s.lines.getD s.cy []).length) :
    (handle_input 127 (handle_input ch s)).lines = s.lines ∧
    (handle_input 127 (handle_input ch s)).cx = s.cx ∧
    (handle_input 127 (handle_input ch s)).cy = s.cy := by
  rw [handle_input_eq_insert ch s h1 h2,
    handle_input_eq_backspace 127 _ (Or.inr rfl),
    if_pos (Nat.succ_pos s.cx)]
  refine ⟨?_, rfl, rfl⟩
  dsimp only
  rw [show (snapshot s).cy = s.cy from rfl]
  have hcy' : s.cy <
      (s.lines.set s.cy
        ((s.lines.getD s.cy []).take s.cx ++ ch :: (s.lines.getD s.cy []).drop s.cx)).length := by
    rw [List.length_set]
    exact hcy
  rw [getD_set_self _ _ _ _ hcy, List.set_set]
  have hline := insert_delete_line (s.lines.getD s.cy []) ch s.cx hcx
  rw [show s.cx + 1 - 1 = s.cx from rfl, hline]
  exact set_getD_self s.lines s.cy [] hcy

theorem C8_insert_backspace_roundtrip_witness :
    (handle_input 127 (handle_input 98 (initState 24))).lines = (initState 24).lines ∧
    (handle_input 127 (handle_input 98 (initState 24))).cx = (initState 24).cx ∧
    (handle_input 127 (handle_input 98 (initState 24))).cy = (initState 24).cy :=
  C8_insert_backspace_roundtrip 98 (initState 24) (by omega) (by omega)
    (by decide) (by decide)

theorem splitlinesAux_cons_of_not_break (acc : Line) (c : Nat) (t : Line)
    (h : isLineBreak c = false) :
    splitlinesAux acc (c :: t) = splitlinesAux (c :: acc) t := by
  have h13 : c ≠ 13 := by
    intro hc
    rw [hc] at h
    exact absurd h (by decide)
  cases t with
  | nil => simp [splitlinesAux, h]
  | cons c2 t2 => simp [splitlinesAux, h, h13]

theorem splitlinesAux_cons_newline (acc : Line) (t : Line) :
    splitlinesAux acc (10 :: t) = acc.reverse :: splitlinesAux [] t := by
  cases t with
  | nil => simp [splitlinesAux, show isLineBreak 10 = true from rfl]
  | cons c2 t2 => simp [splitlinesAux, show isLineBreak 10 = true from rfl]

theorem splitlinesAux_append (l : Line)
    (hl : ∀ c ∈ l, isLineBreak c = false) (acc : Line) (r : Line) :
    splitlinesAux acc (l ++ r) = splitlinesAux (l.reverse ++ acc) r := by
  induction l generalizing acc with
  | nil => simp
  | cons c l2 ih =>
    rw [List.cons_append,
      splitlinesAux_cons_of_not_break acc c (l2 ++ r) (hl c (by simp)),
      ih (fun x hx => hl x (by simp [hx])) (c :: acc)]
    simp

/-- Claim C10 as amended: for every nonempty buffer in which no line
contains any character that Python `splitlines` treats as a line boundary
(not only `\n`, but also `\r`, `\v`, `\f`, `\x1c`-`\x1e`, `\x85`,
U+2028, U+2029) and whose final line is nonempty, saving
(joining with single newlines, no trailing newline) and reopening
(splitting on line boundaries) returns exactly the original lines. -/
theorem C10_save_open_roundtrip (L : List Line) (hne : L ≠ [])
    (hclean : ∀ l ∈ L, ∀ c ∈ l, isLineBreak c = false)
    (hlast : L.getLast? ≠ some []) :
    splitlines (save_content L) = L := by
  induction L with
  | nil => exact absurd rfl hne
  | cons l rest ih =>
    cases rest with
    | nil =>
      have hl : l ≠ [] := by
        intro h0
        apply hlast
        rw [h0]
        rfl
      unfold splitlines
      rw [show save_content [l] = l from rfl]
      have hap := splitlinesAux_append l (fun c hc => hclean l (by simp) c hc) [] []
      rw [List.append_nil] at hap
      rw [hap]
      simp [splitlinesAux, hl]
    | cons l2 rest2 =>
      unfold splitlines
      rw [show save_content (l :: l2 :: rest2) =
        l ++ 10 :: save_content (l2 :: rest2) from rfl]
      rw [splitlinesAux_append l (fun c hc => hclean l (by simp) c hc) []
        (10 :: save_content (l2 :: rest2)), splitlinesAux_cons_newline]
      rw [List.getLast?_cons_cons] at hlast
      have ihr := ih (by simp)
        (fun x hx => hclean x (List.mem_cons_of_mem l hx)) hlast
      unfold splitlines at ihr
      rw [ihr]
      simp

theorem C10_save_open_roundtrip_witness :
    splitlines (save_content [[97], [98]]) = [[97], [98]] :=
  C10_save_open_roundtrip [[97], [98]] (by decide) (by decide) (by decide)

/-- Every snapshot on a history stack has a nonempty buffer and an
in-bounds cursor row. -/
def snaps_ok (st : List Snap) : Prop :=
  ∀ p ∈ st, p.1 ≠ [] ∧ p.2.2 < p.1.length

theorem getD_eraseIdx_of_lt (l : List Line) (i j : Nat) (d : Line)
    (hij : j < i) (hi : i ≤ l.length) :
    (l.eraseIdx i).getD j d = l.getD j d := by
  rw [List.getD_eq_getElem?_getD, List.getD_eq_getElem?_getD,
    List.eraseIdx_eq_take_drop_succ,
    List.getElem?_append_left (by rw [List.length_take]; omega),
    List.getElem?_take_of_lt hij]

/-- The row part of the cursor invariant, together with its propagation
through the history stacks: the buffer is nonempty, the cursor row is in
bounds, and every stored snapshot satisfies the same. -/
def reach_inv (s : EditorState) : Prop :=
  s.lines ≠ [] ∧ s.cy < s.lines.length ∧
    snaps_ok s.undo_stack ∧ snaps_ok s.redo_stack

theorem snaps_ok_capPush (st : List Snap) (p : Snap) (h : snaps_ok st)
    (hp : p.1 ≠ [] ∧ p.2.2 < p.1.length) :
    snaps_ok (if 100 < (st ++ [p]).length then (st ++ [p]).tail else st ++ [p]) := by
  intro q hq
  split at hq
  · rcases List.mem_append.mp (List.mem_of_mem_tail hq) with h1 | h1
    · exact h q h1
    · rw [List.mem_singleton.mp h1]; exact hp
  · rcases List.mem_append.mp hq with h1 | h1
    · exact h q h1
    · rw [List.mem_singleton.mp h1]; exact hp

theorem reach_inv_snapshot (s : EditorState) (h : reach_inv s) :
    reach_inv (snapshot s) := by
  obtain ⟨h1, h2, h3, h4⟩ := h
  exact ⟨h1, h2, snaps_ok_capPush s.undo_stack (s.lines, s.cx, s.cy) h3 ⟨h1, h2⟩,
    fun q hq => absurd hq (List.not_mem_nil q)⟩

theorem reach_inv_undo (s : EditorState) (h : reach_inv s) :
    reach_inv (undo s) := by
  obtain ⟨h1, h2, h3, h4⟩ := h
  unfold undo
  cases heq : s.undo_stack.getLast? with
  | none => exact ⟨h1, h2, h3, h4⟩
  | some p =>
    obtain ⟨l, x, y⟩ := p
    have hp := h3 (l, x, y) (List.mem_of_getLast?_eq_some heq)
    refine ⟨hp.1, hp.2, ?_, ?_⟩
    · intro q hq
      exact h3 q (List.Sublist.mem hq (List.dropLast_sublist s.undo_stack))
    · intro q hq
      rcases List.mem_append.mp hq with h5 | h5
      · exact h4 q h5
      · rw [List.mem_singleton.mp h5]; exact ⟨h1, h2⟩

theorem reach_inv_redo (s : EditorState) (h : reach_inv s) :
    reach_inv (redo s) := by
  obtain ⟨h1, h2, h3, h4⟩ := h
  unfold redo
  cases heq : s.redo_stack.getLast? with
  | none => exact ⟨h1, h2, h3, h4⟩
  | some p =>
    obtain ⟨l, x, y⟩ := p
    have hp := h4 (l, x, y) (List.mem_of_getLast?_eq_some heq)
    refine ⟨hp.1, hp.2, ?_, ?_⟩
    · intro q hq
      rcases List.mem_append.mp hq with h5 | h5
      · exact h3 q h5
      · rw [List.mem_singleton.mp h5]; exact ⟨h1, h2⟩
    · intro q hq
      exact h4 q (List.Sublist.mem hq (List.dropLast_sublist s.redo_stack))

theorem reach_inv_handle_input (ch : Nat) (s : EditorState) :
    reach_inv s → reach_inv (handle_input ch s) := by
  refine handle_input_cases (fun _ s t => reach_inv s → reach_inv t)
    ?_ ?_ ?_ ?_ ?_ ?_ ?_ ?_ ?_ ?_ ?_ ?_ ?_ ?_ ch s
  · exact fun s h => h
  · intro s h
    unfold save
    split
    · exact h
    · exact h
  · exact fun s => reach_inv_undo s
  · exact fun s => reach_inv_redo s
  · exact fun s h => h
  · exact fun s h => h
  · intro s h
    obtain ⟨h1, h2, h3, h4⟩ := h
    exact ⟨h1, by simp only [Nat.zero_max]; omega, h3, h4⟩
  · intro s h
    obtain ⟨h1, h2, h3, h4⟩ := h
    have hpos : 0 < s.lines.length := List.length_pos.mpr h1
    refine ⟨h1, ?_, h3, h4⟩
    dsimp only
    omega
  · intro ch s _ h
    obtain ⟨h1, h2, h3, h4⟩ := h
    have hs := reach_inv_snapshot s ⟨h1, h2, h3, h4⟩
    have hlen : ((s.lines.set s.cy ((s.lines.getD s.cy []).take s.cx)).insertIdx
        (s.cy + 1) ((s.lines.getD s.cy []).drop s.cx)).length = s.lines.length + 1 := by
      rw [List.length_insertIdx _ _ (by rw [List.length_set]; omega), List.length_set]
    refine ⟨?_, ?_, hs.2.2.1, hs.2.2.2⟩ <;> dsimp only [snapshot]
    · exact List.length_pos.mp (by rw [hlen]; omega)
    · rw [hlen]; omega
  · intro ch s _ _ h
    obtain ⟨h1, h2, h3, h4⟩ := h
    have hs := reach_inv_snapshot s ⟨h1, h2, h3, h4⟩
    refine ⟨?_, ?_, hs.2.2.1, hs.2.2.2⟩ <;> dsimp only [snapshot]
    · exact List.length_pos.mp (by rw [List.length_set]; omega)
    · rw [List.length_set]; omega
  · intro ch s _ hx hy h
    obtain ⟨h1, h2, h3, h4⟩ := h
    have hs := reach_inv_snapshot s ⟨h1, h2, h3, h4⟩
    have hlen : ((s.lines.set (s.cy - 1)
        (s.lines.getD (s.cy - 1) [] ++ s.lines.getD s.cy [])).eraseIdx s.cy).length =
        s.lines.length - 1 := by
      rw [List.length_eraseIdx_of_lt (by rw [List.length_set]; omega), List.length_set]
    refine ⟨?_, ?_, hs.2.2.1, hs.2.2.2⟩ <;> dsimp only [snapshot]
    · exact List.length_pos.mp (by rw [hlen]; omega)
    · rw [hlen]; omega
  · intro ch s _ _ _ h
    obtain ⟨h1, h2, h3, h4⟩ := h
    have hs := reach_inv_snapshot s ⟨h1, h2, h3, h4⟩
    exact ⟨h1, h2, hs.2.2.1, hs.2.2.2⟩
  · intro ch s _ _ h
    obtain ⟨h1, h2, h3, h4⟩ := h
    have hs := reach_inv_snapshot s ⟨h1, h2, h3, h4⟩
    refine ⟨?_, ?_, hs.2.2.1, hs.2.2.2⟩ <;> dsimp only [snapshot]
    · exact List.length_pos.mp (by rw [List.length_set]; omega)
    · rw [List.length_set]; omega
  · exact fun ch s h => h

theorem reach_inv_initState (rows : Nat) : reach_inv (initState rows) :=
  ⟨by simp [initState], by simp [initState],
    fun q hq => absurd hq (List.not_mem_nil q),
    fun q hq => absurd hq (List.not_mem_nil q)⟩

theorem reach_inv_run_keys (chs : List Nat) (s : EditorState)
    (h : reach_inv s) : reach_inv (run_keys chs s) := by
  induction chs generalizing s with
  | nil => exact h
  | cons ch rest ih => exact ih (handle_input ch s) (reach_inv_handle_input ch s h)

theorem cursor_ok_handle_input (ch : Nat) (s : EditorState)
    (hch : ch ≠ KEY_UP ∧ ch ≠ KEY_DOWN ∧ ch ≠ 26 ∧ ch ≠ 25)
    (h : cursor_ok s) : cursor_ok (handle_input ch s) := by
  refine handle_input_cases
    (fun ch s t => (ch ≠ KEY_UP ∧ ch ≠ KEY_DOWN ∧ ch ≠ 26 ∧ ch ≠ 25) →
      cursor_ok s → cursor_ok t)
    ?_ ?_ ?_ ?_ ?_ ?_ ?_ ?_ ?_ ?_ ?_ ?_ ?_ ?_ ch s hch h
  · exact fun s _ h => h
  · intro s _ h
    unfold save
    split
    · exact h
    · exact h
  · intro s hc
    exact absurd rfl hc.2.2.1
  · intro s hc
    exact absurd rfl hc.2.2.2
  · intro s _ h
    obtain ⟨h1, h2, h3⟩ := h
    refine ⟨h1, h2, ?_⟩
    dsimp only
    simp only [Nat.zero_max]
    omega
  · intro s _ h
    obtain ⟨h1, h2, h3⟩ := h
    refine ⟨h1, h2, ?_⟩
    dsimp only
    exact Nat.min_le_left _ _
  · intro s hc
    exact absurd rfl hc.1
  · intro s hc
    exact absurd rfl hc.2.1
  · intro ch s _ _ h
    obtain ⟨h1, h2, h3⟩ := h
    have hlen : ((s.lines.set s.cy ((s.lines.getD s.cy []).take s.cx)).insertIdx
        (s.cy + 1) ((s.lines.getD s.cy []).drop s.cx)).length = s.lines.length + 1 := by
      rw [List.length_insertIdx _ _ (by rw [List.length_set]; omega), List.length_set]
    refine ⟨?_, ?_, ?_⟩ <;> dsimp only [snapshot]
    · exact List.length_pos.mp (by rw [hlen]; omega)
    · rw [hlen]; omega
    · exact Nat.zero_le _
  · intro ch s _ hx _ h
    obtain ⟨h1, h2, h3⟩ := h
    refine ⟨?_, ?_, ?_⟩ <;> dsimp only [snapshot]
    · exact List.length_pos.mp (by rw [List.length_set]; omega)
    · rw [List.length_set]; exact h2
    · rw [getD_set_self _ _ _ _ h2, List.length_append, List.length_take,
        List.length_drop]
      omega
  · intro ch s _ hx0 hy _ h
    obtain ⟨h1, h2, h3⟩ := h
    have hlen : ((s.lines.set (s.cy - 1)
        (s.lines.getD (s.cy - 1) [] ++ s.lines.getD s.cy [])).eraseIdx s.cy).length =
        s.lines.length - 1 := by
      rw [List.length_eraseIdx_of_lt (by rw [List.length_set]; omega), List.length_set]
    refine ⟨?_, ?_, ?_⟩ <;> dsimp only [snapshot]
    · exact List.length_pos.mp (by rw [hlen]; omega)
    · rw [hlen]; omega
    · rw [getD_eraseIdx_of_lt _ _ _ _ (by omega) (by rw [List.length_set]; omega),
        getD_set_self _ _ _ _ (by omega), List.length_append]
      omega
  · intro ch s _ _ _ _ h
    exact h
  · intro ch s _ _ _ h
    obtain ⟨h1, h2, h3⟩ := h
    refine ⟨?_, ?_, ?_⟩ <;> dsimp only [snapshot]
    · exact List.length_pos.mp (by rw [List.length_set]; omega)
    · rw [List.length_set]; exact h2
    · rw [getD_set_self _ _ _ _ h2, List.length_append, List.length_take,
        List.length_cons, List.length_drop]
      omega
  · exact fun ch s _ h => h

/-- Claim C7 as amended: over `Nat` coordinates (so `0 <= row` and
`0 <= column` are automatic), after any sequence of normal-mode key events
from the fresh state the buffer is nonempty and `row < len(lines)` always
holds; and each single operation other than vertical cursor movement
(KEY_UP/KEY_DOWN, which do not clamp the column — cledit.py lines 170-173)
and undo/redo (which can restore such an unclamped column) also preserves
the full bound `column <= len(lines[row])`.  File open is excluded: it can
break even the row bound (see C2/C3). -/
theorem C7_cursor_amended :
    (∀ (chs : List Nat) (rows : Nat),
      (run_keys chs (initState rows)).lines ≠ [] ∧
      (run_keys chs (initState rows)).cy <
        (run_keys chs (initState rows)).lines.length) ∧
    (∀ (ch : Nat) (s : EditorState),
      ch ≠ KEY_UP → ch ≠ KEY_DOWN → ch ≠ 26 → ch ≠ 25 →
      cursor_ok s → cursor_ok (handle_input ch s)) := by
  constructor
  · intro chs rows
    have h := reach_inv_run_keys chs (initState rows) (reach_inv_initState rows)
    exact ⟨h.1, h.2.1⟩
  · intro ch s h1 h2 h3 h4 h
    exact cursor_ok_handle_input ch s ⟨h1, h2, h3, h4⟩ h

theorem C7_cursor_amended_witness :
    ((run_keys [10, 97] (initState 24)).lines ≠ [] ∧
      (run_keys [10, 97] (initState 24)).cy <
        (run_keys [10, 97] (initState 24)).lines.length) ∧
    cursor_ok (handle_input 97 (initState 24)) :=
  ⟨C7_cursor_amended.1 [10, 97] 24,
    C7_cursor_amended.2 97 (initState 24) (by decide) (by decide) (by decide)
      (by decide) (by decide)⟩
